import Mathlib

/-!
Verification of the hIPPYlib scheduling core (`hippylib/scheduling/comm_utils.py`
and `hippylib/scheduling/collective.py`).

The Python code is shallowly embedded as executable Lean definitions.
Modelling conventions:
* Real scalars (`float`, `np.float64`) are modelled as `Rat` with ideal
  arithmetic (floating-point rounding is outside the scope of the
  embedding).  Integer scalars travel on a 32-bit wire — `allReduce` stores
  them in `np.array([v], dtype=np.int32)` and reduces with `MPI.INT` — so
  they are modelled as `Int` together with an explicit two's-complement wrap
  `toInt32` applied where the program narrows to 32 bits: on the conversion
  into the send buffer and on the wrapping `MPI.INT` sum.
* A collective operation is modelled at group level: the group state holds the
  payload of every participating process at once (one list entry per process),
  and the MPI sum all-reduce delivers the elementwise sum of all the
  per-process send buffers to every process.
* Python exceptions are modelled by the `PyErr` type; a raised exception is an
  `error`/`err` result that also carries the post-raise state of the payload
  objects, so that mutations observable after a failure can be stated.
-/

namespace HippylibSched

/-- Python exceptions raised by the embedded code. -/
inductive PyErr where
  /-- A failing `assert` statement. -/
  | assertionError
  /-- `raise NotImplementedError(msg)`. -/
  | notImplementedError (msg : String)
  /-- Evaluation of an undefined bare name. -/
  | nameError (name : String)
  /-- A call applied to a value of the wrong type, such as `float(m)` on a bound method. -/
  | typeError (msg : String)
  /-- Access to an attribute the object does not define. -/
  | attributeError (attr : String)
deriving DecidableEq

/-! ## `comm_utils.splitCommunicators`

```python
def splitCommunicators(comm_world, n_subdomain, n_instances):
    mpi_rank = comm_world.rank
    world_size = comm_world.size
    assert world_size == n_subdomain*n_instances
    color = np.floor(mpi_rank/n_instances)
    key = np.remainder(mpi_rank,n_instances)
    mesh_constructor_comm = comm_world.Split(color = color,key = key)
    collective_comm = comm_world.Split(color = key,key = color)
    return mesh_constructor_comm, collective_comm
```

`comm.Split(color, key)` places all callers that pass the same `color` value in
one new communicator and orders them by `key` (ties broken by the old rank).
A communicator is modelled as the list of world ranks of its members, in the
order the split assigns; `np.floor(mpi_rank/n_instances)` on nonnegative
integers is integer division and `np.remainder` is the remainder.
-/

/-- The `color` computed by `splitCommunicators` for a flat rank:
`np.floor(mpi_rank/n_instances)`. -/
def splitColor (rank n_instances : ℕ) : ℕ := rank / n_instances

/-- The `key` computed by `splitCommunicators` for a flat rank:
`np.remainder(mpi_rank, n_instances)`. -/
def splitKey (rank n_instances : ℕ) : ℕ := rank % n_instances

/-- The member world ranks of `mesh_constructor_comm = comm_world.Split(color=color, key=key)`
for the calling `rank`: all ranks with the same `color`.  Within one color the
key `r % n_instances` increases with the world rank, so ascending world-rank
order (as produced by the filter) is exactly the split ordering by `key`. -/
def meshGroupRanks (world_size n_instances rank : ℕ) : List ℕ :=
  (List.range world_size).filter
    (fun r => splitColor r n_instances = splitColor rank n_instances)

/-- The member world ranks of `collective_comm = comm_world.Split(color=key, key=color)`
for the calling `rank`: all ranks with the same `key`.  Within one key the
color `r / n_instances` increases with the world rank, so the filter ordering
is the split ordering by `color`. -/
def collectiveGroupRanks (world_size n_instances rank : ℕ) : List ℕ :=
  (List.range world_size).filter
    (fun r => splitKey r n_instances = splitKey rank n_instances)

/-- Embedding of `splitCommunicators`, as seen by the process with flat rank
`rank` in a world of `world_size` processes.  The `assert` runs before either
`Split`, so on a dimension mismatch the function fails without constructing
any communicator. -/
def splitCommunicators (world_size rank n_subdomain n_instances : ℕ) :
    Except PyErr (List ℕ × List ℕ) :=
  if world_size = n_subdomain * n_instances then
    .ok (meshGroupRanks world_size n_instances rank,
         collectiveGroupRanks world_size n_instances rank)
  else
    .error .assertionError

/-! ## `collective.py`

The two collective classes.  A reduction or broadcast is a lockstep SPMD
collective, so it is embedded at group level: a `GPayload` holds the payload
of every process of the collective communicator at once (one list entry per
process, in rank order), and the group size `self.size()` is the number of
entries.  The payload kinds mirror the dynamic dispatch of
`MultipleSamePartitioningPDEsCollective.allReduce`/`bcast`:

* `gfloat` : a `float` / `np.float64` scalar on each process;
* `gint`   : an `int` / `np.int32` scalar on each process;
* `garr`   : a `np.ndarray` buffer on each process;
* `gvec`   : a `dolfin.Vector` on each process, as its `get_local()` segment,
  the size of its own `mpi_comm()` (read by the `is_serial_check` assert), and
  a ghost counter of how many times `apply` has been invoked on it (the
  synchronization step after `set_local`);
* `gmulti` : an object with `nvec()` entries on each process, homogeneous
  across the group (entry `i` of the group is one `GPayload`);
* `gother` : any other object, remembering only the name of its type.
-/

/-- Python `str.lower()` (the op names are ASCII): lowercase every character.
Stated over the character list of the string so that it evaluates by kernel
reduction. -/
def pyLower (s : String) : String := String.mk (s.data.map Char.toLower)

/-- Two's-complement 32-bit narrowing: the value an integer takes when stored
in a `np.int32` cell, and the value a wrapping `MPI.INT` sum delivers.  The
literals are `2 ^ 31` and `2 ^ 32`; the result lies in `[-2 ^ 31, 2 ^ 31)`
and agrees with the argument modulo `2 ^ 32`. -/
def toInt32 (z : ℤ) : ℤ := (z + 2147483648) % 4294967296 - 2147483648

mutual
/-- Group-level payload: the payloads of all processes of the collective
communicator at one collective call site. -/
inductive GPayload where
  | gfloat (xs : List ℚ)
  | gint (zs : List ℤ)
  | garr (xss : List (List ℚ))
  | gvec (locs : List (List ℚ)) (meshSizes : List ℕ) (applyCounts : List ℕ)
  | gmulti (entries : GPList)
  | gother (kind : String)
deriving DecidableEq
/-- Spine of the entries of a `gmulti` payload. -/
inductive GPList where
  | nil
  | cons (head : GPayload) (tail : GPList)
deriving DecidableEq
end

/-- Outcome of a collective call on every process at once: either a normal
return or a raised exception, in both cases together with the state the
caller-supplied payload objects are left in (so that mutations observable
after a failure can be stated). -/
inductive RRes where
  | ok (ret : GPayload) (st : GPayload)
  | err (e : PyErr) (st : GPayload)
deriving DecidableEq

/-- The state the caller-supplied payload is left in. -/
def RRes.st : RRes → GPayload
  | .ok _ s => s
  | .err _ s => s

/-- The exception carried by a failing outcome, if any. -/
def RRes.errOf : RRes → Option PyErr
  | .ok _ _ => none
  | .err e _ => some e

/-- `true` when the call returned normally. -/
def RRes.isOk : RRes → Bool
  | .ok _ _ => true
  | .err _ _ => false

/-- Elementwise sum of two buffers of equal shape. -/
def addQ (a b : List ℚ) : List ℚ := List.zipWith (· + ·) a b

/-- The buffer `MPI.Allreduce(..., op = MPI.SUM)` delivers to every process:
the elementwise sum of the per-process send buffers. -/
def esum : List (List ℚ) → List ℚ
  | [] => []
  | [x] => x
  | x :: xs => addQ x (esum xs)

/-- The `NotImplementedError` raised by `NullCollective.allReduce` on an
unknown operation name (formatted with the original, un-lowercased `op`). -/
def nullOpErr (op : String) : PyErr :=
  .notImplementedError ("Unknown operation *" ++ op ++ "* in NullCollective.allReduce")

/-- The `NotImplementedError` raised by
`MultipleSamePartitioningPDEsCollective.allReduce` on an unknown operation
name (its `err_msg` is formatted with the lowercased `op`). -/
def gridOpErr (op : String) : PyErr :=
  .notImplementedError ("Unknown operation *" ++ op ++ "* in MultipleSerialPDEsCollective.allReduce")

/-- Classifies the unknown-operation errors (the concrete realization of the
abstract `UnsupportedOperationError` of the specification).  In this
embedding every reachable `NotImplementedError` is an unknown-operation
error: the only other `raise NotImplementedError` sites, the
unsupported-payload messages of `allReduce` and `bcast`, are never reached
because the bare name `is_serial_check` in their guard raises `NameError`
first. -/
def isUnknownOpErr : PyErr → Bool
  | .notImplementedError _ => true
  | _ => false

/-- `NullCollective.size()`. -/
def nullCollectiveSize : ℕ := 1

/-- `NullCollective.rank()`. -/
def nullCollectiveRank : ℕ := 0

/-- Embedding of `NullCollective.allReduce`: validate the lowercased `op`
against `["sum", "avg"]`, then return `v` unchanged. -/
def nullAllReduce (op : String) (v : GPayload) : Except PyErr GPayload :=
  if pyLower op = "sum" ∨ pyLower op = "avg" then .ok v
  else .error (nullOpErr op)

/-- Embedding of `NullCollective.bcast`: returns `v` unchanged, `root` is not
inspected. -/
def nullBcast (v : GPayload) (root : ℕ) : Except PyErr GPayload := .ok v

mutual
/-- Embedding of `MultipleSamePartitioningPDEsCollective.allReduce` for a
collective of `is_serial_check = isc`, acting on the whole group at once.
Branches, in source order:
* `float`/`np.float64`: all-reduce a one-element buffer, return `receive[0]`
  for `sum` and `receive[0]/float(self.size())` for `avg`; the original is
  not mutated.
* `int`/`np.int32`: likewise, but over the 32-bit wire: every value is
  narrowed by its storage in `np.array([v], dtype=np.int32)` (`toInt32`) and
  the `MPI.INT` sum wraps, so `receive[0]` is `toInt32` of the sum of the
  narrowed sends (32-bit addition is commutative and associative modulo
  `2 ^ 32`, so the delivered value does not depend on the reduction order);
  `avg` is `receive[0]//self.size()` (Python floor division, `Int.fdiv`),
  whose result already lies in the `int32` range.
* `np.ndarray`: all-reduce the buffer; `sum` assigns `v[:] = receive`, but the
  `avg` line of the source reads `v[:] == (1./float(self.size()))*receive`,
  a comparison rather than an assignment, so the buffer is left unchanged.
* `dolfin.Vector` (an object with `mpi_comm` and `get_local`): with
  `is_serial_check` the assert on `v.mpi_comm().Get_size() == 1` runs first;
  then the local segments are all-reduced, scaled by `1./float(self.size())`
  for `avg`, written back with `set_local` and published with `apply`.
* an object with `nvec`: reduce each entry in order, discarding the per-entry
  return value, and return the container.
* anything else: the guard reads the bare name `is_serial_check` (not
  `self.is_serial_check`), which is undefined, so a `NameError` is raised
  before the `NotImplementedError` naming the type can be built.
An unknown `op` raises before `set_local`, so no branch mutates on that path. -/
def gridAllReduce (isc : Bool) (op : String) : GPayload → RRes
  | .gfloat xs =>
      let opl := pyLower op
      let recv := xs.sum
      if opl = "sum" then .ok (.gfloat (xs.map fun _ => recv)) (.gfloat xs)
      else if opl = "avg" then
        .ok (.gfloat (xs.map fun _ => recv / (xs.length : ℚ))) (.gfloat xs)
      else .err (gridOpErr opl) (.gfloat xs)
  | .gint zs =>
      let opl := pyLower op
      let recv := toInt32 ((zs.map toInt32).sum)
      if opl = "sum" then .ok (.gint (zs.map fun _ => recv)) (.gint zs)
      else if opl = "avg" then
        .ok (.gint (zs.map fun _ => Int.fdiv recv (zs.length : ℤ))) (.gint zs)
      else .err (gridOpErr opl) (.gint zs)
  | .garr xss =>
      let opl := pyLower op
      let recv := esum xss
      if opl = "sum" then
        let st := GPayload.garr (xss.map fun _ => recv)
        .ok st st
      else if opl = "avg" then
        .ok (.garr xss) (.garr xss)
      else .err (gridOpErr opl) (.garr xss)
  | .gvec locs ms acs =>
      if isc && ms.any (fun s => s != 1) then
        .err .assertionError (.gvec locs ms acs)
      else
        let opl := pyLower op
        let recv := esum locs
        if opl = "sum" then
          let st := GPayload.gvec (locs.map fun _ => recv) ms (acs.map (· + 1))
          .ok st st
        else if opl = "avg" then
          let recv2 := recv.map (fun x => (1 / (locs.length : ℚ)) * x)
          let st := GPayload.gvec (locs.map fun _ => recv2) ms (acs.map (· + 1))
          .ok st st
        else .err (gridOpErr opl) (.gvec locs ms acs)
  | .gmulti es =>
      match gridAllReduceEntries isc op es with
      | (sts, none) => .ok (.gmulti sts) (.gmulti sts)
      | (sts, some e) => .err e (.gmulti sts)
  | .gother k => .err (.nameError "is_serial_check") (.gother k)
termination_by structural v => v
/-- The `for i in range(v.nvec()): self.allReduce(v[i], op)` loop: reduce the
entries left to right; the first raised exception aborts the loop, leaving
the remaining entries untouched.  Returns the final entry states and the
exception, if one was raised. -/
def gridAllReduceEntries (isc : Bool) (op : String) : GPList → GPList × Option PyErr
  | .nil => (.nil, none)
  | .cons h t =>
      match gridAllReduce isc op h with
      | .ok _ s =>
          let r := gridAllReduceEntries isc op t
          (.cons s r.1, r.2)
      | .err e s => (.cons s t, some e)
termination_by structural l => l
end

mutual
/-- Embedding of `MultipleSamePartitioningPDEsCollective.bcast` from process
`root` of the collective.  Scalars and `np.ndarray` go through the pickling
`comm.bcast`, which returns the value of `root` on every process and never
writes into the argument object; a `dolfin.Vector` has the local segment of
`root` written back with `set_local`/`apply`; an object with `nvec` is
broadcast entrywise; any other kind hits the same undefined bare
`is_serial_check` name as `allReduce`, raising `NameError`. -/
def gridBcast (isc : Bool) (root : ℕ) : GPayload → RRes
  | .gfloat xs => .ok (.gfloat (xs.map fun _ => xs.getD root 0)) (.gfloat xs)
  | .gint zs => .ok (.gint (zs.map fun _ => zs.getD root 0)) (.gint zs)
  | .garr xss => .ok (.garr (xss.map fun _ => xss.getD root [])) (.garr xss)
  | .gvec locs ms acs =>
      if isc && ms.any (fun s => s != 1) then
        .err .assertionError (.gvec locs ms acs)
      else
        let st := GPayload.gvec (locs.map fun _ => locs.getD root []) ms (acs.map (· + 1))
        .ok st st
  | .gmulti es =>
      match gridBcastEntries isc root es with
      | (sts, none) => .ok (.gmulti sts) (.gmulti sts)
      | (sts, some e) => .err e (.gmulti sts)
  | .gother k => .err (.nameError "is_serial_check") (.gother k)
termination_by structural v => v
/-- The `for i in range(v.nvec()): self.bcast(v[i], root=root)` loop. -/
def gridBcastEntries (isc : Bool) (root : ℕ) : GPList → GPList × Option PyErr
  | .nil => (.nil, none)
  | .cons h t =>
      match gridBcast isc root h with
      | .ok _ s =>
          let r := gridBcastEntries isc root t
          (.cons s r.1, r.2)
      | .err e s => (.cons s t, some e)
termination_by structural l => l
end

/-- Map over the entries of a `gmulti` spine. -/
def GPList.map (f : GPayload → GPayload) : GPList → GPList
  | .nil => .nil
  | .cons h t => .cons (f h) (t.map f)

/-- Every entry of the spine reduces without raising, under the given
collective and operation. -/
def allReduceAllOk (isc : Bool) (op : String) : GPList → Bool
  | .nil => true
  | .cons h t => (gridAllReduce isc op h).isOk && allReduceAllOk isc op t

/-! ## `comm_utils.checkFunctionSpaceConsistentPartitioning`

```python
def checkFunctionSpaceConsistentPartitioning(Vh, collective):
    v = dl.interpolate(dl.Constant(float(collective.rank)),Vh)
    if collective.rank == 0:
        root_v = dl.interpolate(dl.Constant(float(mesh.comm.rank)),Vh)
    else:
        root_v = dl.interpolate(dl.Constant(0.),Vh)
    collective.bcast(root_v.vector(),root = 0)
    diff = v - root_v
    tests_passed_here = diff.norm("l2") < 1e-10
    tests_passed_everywhere = False
    dl.MPI.comm_world.allReduce([tests_passed_here, MPI.BOOL], [tests_passed_everywhere,MPI.BOOL] , op = MPI.LAND)
    return tests_passed_everywhere
```

In both collective classes `rank` is a method, so the attribute access
`collective.rank` yields a bound method, never a number; a `PyVal` records
which.  The first statement applies `float` to it, which raises `TypeError`
in Python, so the function never reaches a return.  Were `collective.rank` a
number `r`, the next failure is still immediate: for `r == 0` the undefined
global `mesh` raises `NameError`, and otherwise the statements up to the local
norm test run but `dl.MPI.comm_world` (an `mpi4py` communicator) has no
attribute `allReduce` (only `allreduce`/`Allreduce`), raising
`AttributeError`; the intervening statements only build values local to the
function, so they are elided here.  On no path is a boolean returned.
-/

/-- A Python value as relevant to the checker: a number, or a bound method
picked up by an attribute access without call parentheses. -/
inductive PyVal where
  | num (x : ℚ)
  | boundMethod (cls attr : String)
deriving DecidableEq

/-- Python `float(v)`: succeeds on numbers, raises `TypeError` on a bound
method. -/
def pyFloat : PyVal → Except PyErr ℚ
  | .num x => .ok x
  | .boundMethod _ _ => .error (.typeError "float() argument must be a string or a number, not method")

/-- The value of the attribute access `collective.rank` on a `NullCollective`
instance: `rank` is a method of the class, and the source omits the call
parentheses. -/
def nullCollectiveRankAttr : PyVal := .boundMethod "NullCollective" "rank"

/-- The value of the attribute access `collective.rank` on a
`MultipleSamePartitioningPDEsCollective` instance. -/
def gridCollectiveRankAttr : PyVal := .boundMethod "MultipleSamePartitioningPDEsCollective" "rank"

/-- Embedding of `checkFunctionSpaceConsistentPartitioning(Vh, collective)`,
parameterized by the value of the attribute access `collective.rank`. -/
def checkFunctionSpaceConsistentPartitioning (rankAttr : PyVal) : Except PyErr Bool := do
  let r ← pyFloat rankAttr
  if r = 0 then
    .error (.nameError "mesh")
  else
    .error (.attributeError "allReduce")

/-- Embedding of `checkMeshConsistentPartitioning(mesh, collective)`: runs the
function-space check on the DG0 space, then on the CG1 space, and conjoins
the two booleans. -/
def checkMeshConsistentPartitioning (rankAttr : PyVal) : Except PyErr Bool := do
  let t1 ← checkFunctionSpaceConsistentPartitioning rankAttr
  let t2 ← checkFunctionSpaceConsistentPartitioning rankAttr
  return (t1 && t2)

/-! ## Helper lemmas -/

theorem range_filter_self (n k : ℕ) (hk : k < n) :
    (List.range n).filter (fun j => decide (j = k)) = [k] := by
  induction n with
  | zero => omega
  | succ s ih =>
    rw [List.range_succ, List.filter_append]
    rcases Nat.lt_or_ge k s with hks | hks
    · rw [ih hks]
      have : List.filter (fun j => decide (j = k)) [s] = [] := by
        simp
        omega
      rw [this]
      simp
    · have hks' : k = s := by omega
      subst hks'
      have h1 : (List.range k).filter (fun j => decide (j = k)) = [] := by
        apply List.filter_eq_nil_iff.mpr
        intro j hj
        have := List.mem_range.mp hj
        simp
        omega
      rw [h1]
      simp

/-- The ranks of `[0, ns*ni)` whose color is `c < ns` are exactly the block
`c*ni, ..., c*ni + ni - 1`, in rank order. -/
theorem filter_range_div (ns ni c : ℕ) (hni : 0 < ni) (hc : c < ns) :
    (List.range (ns * ni)).filter (fun r => splitColor r ni = c) =
      (List.range ni).map (fun j => c * ni + j) := by
  induction ns with
  | zero => omega
  | succ s ih =>
    have hrange : List.range ((s + 1) * ni) =
        List.range (s * ni) ++ (List.range ni).map (fun j => s * ni + j) := by
      rw [Nat.succ_mul, List.range_add]
    rw [hrange, List.filter_append, List.filter_map]
    have hsecond : ∀ j, j < ni → splitColor (s * ni + j) ni = s := by
      intro j hj
      show (s * ni + j) / ni = s
      rw [Nat.add_comm, Nat.mul_comm, Nat.add_mul_div_left _ _ hni, Nat.div_eq_of_lt hj]
      omega
    rcases Nat.lt_or_ge c s with hcs | hcs
    · rw [ih hcs]
      have h2 : (List.range ni).filter
          ((fun r => decide (splitColor r ni = c)) ∘ (fun j => s * ni + j)) = [] := by
        apply List.filter_eq_nil_iff.mpr
        intro j hj
        simp only [Function.comp, decide_eq_true_eq]
        rw [hsecond j (List.mem_range.mp hj)]
        omega
      rw [h2]
      simp
    · have hcs' : c = s := by omega
      subst hcs'
      have h1 : (List.range (c * ni)).filter (fun r => decide (splitColor r ni = c)) = [] := by
        apply List.filter_eq_nil_iff.mpr
        intro r hr
        have hr' := List.mem_range.mp hr
        simp only [decide_eq_true_eq]
        show ¬ r / ni = c
        have hlt : r < ni * c := by rw [Nat.mul_comm]; exact hr'
        exact Nat.ne_of_lt (Nat.div_lt_of_lt_mul hlt)
      have h2 : (List.range ni).filter
          ((fun r => decide (splitColor r ni = c)) ∘ (fun j => c * ni + j)) = List.range ni := by
        apply List.filter_eq_self.mpr
        intro j hj
        simp only [Function.comp, decide_eq_true_eq]
        exact hsecond j (List.mem_range.mp hj)
      rw [h1, h2]
      simp

/-- The ranks of `[0, ns*ni)` whose key is `k < ni` are exactly
`k, ni + k, ..., (ns-1)*ni + k`, in rank order. -/
theorem filter_range_mod (ns ni k : ℕ) (hk : k < ni) :
    (List.range (ns * ni)).filter (fun r => splitKey r ni = k) =
      (List.range ns).map (fun i => i * ni + k) := by
  induction ns with
  | zero => simp
  | succ s ih =>
    have hrange : List.range ((s + 1) * ni) =
        List.range (s * ni) ++ (List.range ni).map (fun j => s * ni + j) := by
      rw [Nat.succ_mul, List.range_add]
    rw [hrange, List.filter_append, List.filter_map, ih]
    have hmod : ∀ j, j < ni → splitKey (s * ni + j) ni = j := by
      intro j hj
      show (s * ni + j) % ni = j
      rw [Nat.add_comm, Nat.add_mul_mod_self_right, Nat.mod_eq_of_lt hj]
    have h2 : (List.range ni).filter
        ((fun r => decide (splitKey r ni = k)) ∘ (fun j => s * ni + j)) = [k] := by
      have hcongr : (List.range ni).filter
          ((fun r => decide (splitKey r ni = k)) ∘ (fun j => s * ni + j)) =
          (List.range ni).filter (fun j => decide (j = k)) := by
        apply List.filter_congr
        intro j hj
        simp only [Function.comp, decide_eq_true_eq, hmod j (List.mem_range.mp hj)]
      rw [hcongr, range_filter_self ni k hk]
    rw [h2, List.range_succ, List.map_append]
    simp

theorem two_mul_sum_range (n : ℕ) : 2 * (List.range n).sum = n * (n - 1) := by
  induction n with
  | zero => rfl
  | succ s ih =>
    rw [List.range_succ, List.sum_append]
    simp only [List.sum_cons, List.sum_nil, Nat.add_zero, Nat.add_sub_cancel]
    cases s with
    | zero => rfl
    | succ t =>
      have hexp : (t + 1) * t + 2 * (t + 1) = (t + 1 + 1) * (t + 1) := by ring
      have ih' : 2 * (List.range (t + 1)).sum = (t + 1) * t := by
        simpa using ih
      omega

/-- A sum `s` with `2 * s = N * (N - 1)` satisfies `s / N = (N - 1) / 2`
in natural-number (floor) division. -/
theorem sum_range_div_gauss (N s : ℕ) (hN : 0 < N) (h : 2 * s = N * (N - 1)) :
    s / N = (N - 1) / 2 := by
  rcases Nat.even_or_odd N with ⟨t, ht⟩ | ⟨m, hm⟩
  · have ht' : N = 2 * t := by omega
    have htpos : 0 < t := by omega
    obtain ⟨u, hu⟩ : ∃ u, t = u + 1 := ⟨t - 1, by omega⟩
    subst hu
    subst ht'
    have e1 : 2 * (u + 1) - 1 = 2 * u + 1 := by omega
    rw [e1] at h
    have h2 : 2 * s = 2 * (2 * u ^ 2 + 3 * u + 1) := by
      rw [h]; ring
    have hs : s = 2 * u ^ 2 + 3 * u + 1 := by omega
    have hq1 : u * (2 * (u + 1)) = 2 * u ^ 2 + 2 * u := by ring
    have hq2 : (u + 1) * (2 * (u + 1)) = 2 * u ^ 2 + 4 * u + 2 := by ring
    have hdiv : s / (2 * (u + 1)) = u := by
      apply Nat.div_eq_of_lt_le
      · omega
      · omega
    rw [hdiv, e1]
    omega
  · subst hm
    have e1 : 2 * m + 1 - 1 = 2 * m := by omega
    rw [e1] at h ⊢
    have h2 : 2 * s = 2 * ((2 * m + 1) * m) := by rw [h]; ring
    have hs : s = (2 * m + 1) * m := by omega
    rw [hs, Nat.mul_div_cancel_left m (by omega : 0 < 2 * m + 1)]
    omega

/-- Narrowing to 32 bits is the identity on values already in the `int32`
range. -/
theorem toInt32_eq_self (z : ℤ) (h1 : -2147483648 ≤ z) (h2 : z < 2147483648) :
    toInt32 z = z := by
  unfold toInt32
  omega

/-- Narrowing a list of in-range values to 32 bits changes nothing. -/
theorem map_toInt32_eq_self (zs : List ℤ)
    (h : ∀ z ∈ zs, -2147483648 ≤ z ∧ z < 2147483648) :
    zs.map toInt32 = zs := by
  induction zs with
  | nil => rfl
  | cons a t ih =>
    simp only [List.map_cons]
    have ha := h a (by simp)
    rw [toInt32_eq_self a ha.1 ha.2, ih (fun z hz => h z (by simp [hz]))]

theorem getD_map_const {α β : Type _} (l : List α) (c : β) (p : ℕ) (d : β)
    (hp : p < l.length) : (l.map (fun _ => c)).getD p d = c := by
  rw [List.getD_eq_getElem?_getD, List.getElem?_map, List.getElem?_eq_getElem hp]
  rfl

/-- When every entry of the spine reduces without raising, the entries loop
returns the per-entry post-states and no exception. -/
theorem gridAllReduceEntries_allOk (isc : Bool) (op : String) :
    ∀ es : GPList, allReduceAllOk isc op es = true →
      gridAllReduceEntries isc op es =
        (es.map (fun e => (gridAllReduce isc op e).st), none)
  | .nil, _ => rfl
  | .cons h t, hok => by
    simp only [allReduceAllOk, Bool.and_eq_true] at hok
    obtain ⟨h1, h2⟩ := hok
    have ih := gridAllReduceEntries_allOk isc op t h2
    simp only [gridAllReduceEntries, GPList.map]
    cases heq : gridAllReduce isc op h with
    | ok r s => simp [heq, ih, RRes.st]
    | err e s => rw [heq] at h1; simp [RRes.isOk] at h1

mutual
/-- With an operation name that is neither `sum` nor `avg` (after
lowercasing), `gridAllReduce` leaves every payload in its original state:
each branch raises before its `set_local`/assignment step. -/
theorem gridAllReduce_badop_st (isc : Bool) (op : String)
    (h1 : pyLower op ≠ "sum") (h2 : pyLower op ≠ "avg") :
    ∀ v : GPayload, (gridAllReduce isc op v).st = v
  | .gfloat xs => by
      simp only [gridAllReduce]
      rw [if_neg h1, if_neg h2]
      rfl
  | .gint zs => by
      simp only [gridAllReduce]
      rw [if_neg h1, if_neg h2]
      rfl
  | .garr xss => by
      simp only [gridAllReduce]
      rw [if_neg h1, if_neg h2]
      rfl
  | .gvec locs ms acs => by
      simp only [gridAllReduce]
      by_cases hc : (isc && ms.any fun s => s != 1) = true
      · rw [if_pos hc]
        rfl
      · rw [if_neg hc, if_neg h1, if_neg h2]
        rfl
  | .gmulti es => by
      have hE := gridAllReduceEntries_badop_st isc op h1 h2 es
      simp only [gridAllReduce]
      cases hEq : gridAllReduceEntries isc op es with
      | mk sts e? =>
        rw [hEq] at hE
        cases e? <;> simp_all [RRes.st]
  | .gother k => rfl
/-- With an operation name that is neither `sum` nor `avg`, the entries loop
leaves every entry in its original state. -/
theorem gridAllReduceEntries_badop_st (isc : Bool) (op : String)
    (h1 : pyLower op ≠ "sum") (h2 : pyLower op ≠ "avg") :
    ∀ es : GPList, (gridAllReduceEntries isc op es).1 = es
  | .nil => rfl
  | .cons h t => by
      simp only [gridAllReduceEntries]
      cases heq : gridAllReduce isc op h with
      | ok r s =>
        have hs : s = h := by
          have hst := gridAllReduce_badop_st isc op h1 h2 h
          rw [heq] at hst
          exact hst
        have ht := gridAllReduceEntries_badop_st isc op h1 h2 t
        simp [hs, ht]
      | err e s =>
        have hs : s = h := by
          have hst := gridAllReduce_badop_st isc op h1 h2 h
          rw [heq] at hst
          exact hst
        simp [hs]
end

mutual
/-- With a valid operation name (`sum` or `avg` after lowercasing),
`gridAllReduce` never raises the unknown-operation `NotImplementedError`:
any raised exception is the serial-check `AssertionError` or the undefined
`is_serial_check` `NameError`. -/
theorem gridAllReduce_goodop_noUnknown (isc : Bool) (op : String)
    (h : pyLower op = "sum" ∨ pyLower op = "avg") :
    ∀ v : GPayload, ∀ e, (gridAllReduce isc op v).errOf = some e →
      isUnknownOpErr e = false
  | .gfloat xs => by
      rcases h with h | h <;>
        (simp only [gridAllReduce] ; intro e he)
      · rw [if_pos h] at he
        simp [RRes.errOf] at he
      · by_cases hs : pyLower op = "sum"
        · rw [if_pos hs] at he
          simp [RRes.errOf] at he
        · rw [if_neg hs, if_pos h] at he
          simp [RRes.errOf] at he
  | .gint zs => by
      intro e he
      simp only [gridAllReduce] at he
      rcases h with h | h
      · rw [if_pos h] at he
        simp [RRes.errOf] at he
      · by_cases hs : pyLower op = "sum"
        · rw [if_pos hs] at he
          simp [RRes.errOf] at he
        · rw [if_neg hs, if_pos h] at he
          simp [RRes.errOf] at he
  | .garr xss => by
      intro e he
      simp only [gridAllReduce] at he
      rcases h with h | h
      · rw [if_pos h] at he
        simp [RRes.errOf] at he
      · by_cases hs : pyLower op = "sum"
        · rw [if_pos hs] at he
          simp [RRes.errOf] at he
        · rw [if_neg hs, if_pos h] at he
          simp [RRes.errOf] at he
  | .gvec locs ms acs => by
      intro e he
      simp only [gridAllReduce] at he
      by_cases hc : (isc && ms.any fun s => s != 1) = true
      · rw [if_pos hc] at he
        simp only [RRes.errOf, Option.some.injEq] at he
        subst he
        rfl
      · rw [if_neg hc] at he
        rcases h with h | h
        · rw [if_pos h] at he
          simp [RRes.errOf] at he
        · by_cases hs : pyLower op = "sum"
          · rw [if_pos hs] at he
            simp [RRes.errOf] at he
          · rw [if_neg hs, if_pos h] at he
            simp [RRes.errOf] at he
  | .gmulti es => by
      intro e he
      simp only [gridAllReduce] at he
      cases hEq : gridAllReduceEntries isc op es with
      | mk sts e? =>
        rw [hEq] at he
        cases e? with
        | none => simp [RRes.errOf] at he
        | some e0 =>
          simp only [RRes.errOf, Option.some.injEq] at he
          have h2 : (gridAllReduceEntries isc op es).2 = some e0 := by rw [hEq]
          have hrec := gridAllReduceEntries_goodop_noUnknown isc op h es e0 h2
          rw [← he]
          exact hrec
  | .gother k => by
      intro e he
      simp only [gridAllReduce, RRes.errOf, Option.some.injEq] at he
      subst he
      rfl
/-- With a valid operation name, the entries loop never stops with the
unknown-operation `NotImplementedError`. -/
theorem gridAllReduceEntries_goodop_noUnknown (isc : Bool) (op : String)
    (h : pyLower op = "sum" ∨ pyLower op = "avg") :
    ∀ es : GPList, ∀ e, (gridAllReduceEntries isc op es).2 = some e →
      isUnknownOpErr e = false
  | .nil => by
      intro e he
      simp [gridAllReduceEntries] at he
  | .cons hd t => by
      intro e he
      simp only [gridAllReduceEntries] at he
      cases heq : gridAllReduce isc op hd with
      | ok r s =>
        rw [heq] at he
        simp only at he
        exact gridAllReduceEntries_goodop_noUnknown isc op h t e he
      | err e0 s =>
        rw [heq] at he
        simp only [Option.some.injEq] at he
        subst he
        have := gridAllReduce_goodop_noUnknown isc op h hd e0 (by rw [heq] ; rfl)
        exact this
end

/-! ## Claims -/

/-- The structure `splitCommunicators` actually produces on a world of
`ns * ni` processes: the rank-to-`(color, key)` map is injective, the mesh
communicators are the `ns` same-color classes of size `ni` each, and the
collective communicators are the `ni` same-key classes of size `ns` each. -/
def splitGridSpec (ns ni : ℕ) : Prop :=
  (∀ r, r < ns * ni → ∀ s, s < ns * ni →
     splitColor r ni = splitColor s ni → splitKey r ni = splitKey s ni → r = s) ∧
  (∀ r, r < ns * ni →
     (meshGroupRanks (ns * ni) ni r).length = ni ∧
     (∀ s, s ∈ meshGroupRanks (ns * ni) ni r ↔
        s < ns * ni ∧ splitColor s ni = splitColor r ni) ∧
     splitColor r ni < ns) ∧
  (∀ c, c < ns → ∃ r, r < ns * ni ∧ splitColor r ni = c) ∧
  (∀ r, r < ns * ni →
     (collectiveGroupRanks (ns * ni) ni r).length = ns ∧
     (∀ s, s ∈ collectiveGroupRanks (ns * ni) ni r ↔
        s < ns * ni ∧ splitKey s ni = splitKey r ni) ∧
     splitKey r ni < ni) ∧
  (∀ k, k < ni → ∃ r, r < ns * ni ∧ splitKey r ni = k) ∧
  (∀ r, splitCommunicators (ns * ni) r ns ni =
     .ok (meshGroupRanks (ns * ni) ni r, collectiveGroupRanks (ns * ni) ni r))

/-- C1 (corrected): with `world_size = n_subdomain * n_instance`,
`splitCommunicators` maps each flat rank to a unique `(color, key)` pair
with `color = floor(rank / n_instance)` and `key = rank mod n_instance`, and
the two returned groups partition the flat process set — but with the roles
swapped relative to the claim: the first returned communicator
(`mesh_constructor_comm`) consists of the processes sharing one **color**,
giving `n_subdomain` mesh groups of size `n_instance`, while the second
(`collective_comm`) consists of the processes sharing one **key**, giving
`n_instance` collective groups of size `n_subdomain`. -/
theorem C1_split_partition (ns ni : ℕ) (hns : 0 < ns) (hni : 0 < ni) :
    splitGridSpec ns ni := by
  refine ⟨?_, ?_, ?_, ?_, ?_, ?_⟩
  · intro r hr s hs hc hk
    have h1 := Nat.div_add_mod r ni
    have h2 := Nat.div_add_mod s ni
    have hc' : r / ni = s / ni := hc
    have hk' : r % ni = s % ni := hk
    calc r = ni * (r / ni) + r % ni := h1.symm
      _ = ni * (s / ni) + s % ni := by rw [hc', hk']
      _ = s := h2
  · intro r hr
    have hcolor : splitColor r ni < ns := by
      have : r < ni * ns := by rw [Nat.mul_comm]; exact hr
      exact Nat.div_lt_of_lt_mul this
    refine ⟨?_, ?_, hcolor⟩
    · rw [meshGroupRanks, filter_range_div ns ni _ hni hcolor]
      simp
    · intro s
      simp [meshGroupRanks, List.mem_filter, List.mem_range]
  · intro c hc
    refine ⟨c * ni, ?_, ?_⟩
    · exact Nat.mul_lt_mul_of_lt_of_le hc (Nat.le_refl ni) hni
    · show c * ni / ni = c
      exact Nat.mul_div_cancel c hni
  · intro r hr
    have hkey : splitKey r ni < ni := Nat.mod_lt r hni
    refine ⟨?_, ?_, hkey⟩
    · rw [collectiveGroupRanks, filter_range_mod ns ni _ hkey]
      simp
    · intro s
      simp [collectiveGroupRanks, List.mem_filter, List.mem_range]
  · intro k hk
    refine ⟨k, ?_, ?_⟩
    · calc k < ni := hk
        _ ≤ ns * ni := Nat.le_mul_of_pos_left ni hns
    · show k % ni = k
      exact Nat.mod_eq_of_lt hk
  · intro r
    simp [splitCommunicators]

/-- Witness for C1 at `n_subdomain = 2`, `n_instance = 3`. -/
theorem C1_split_partition_witness : splitGridSpec 2 3 :=
  C1_split_partition 2 3 (by decide) (by decide)

/-- Counterexample to C1 as stated: with `n_subdomain = 2`, `n_instance = 3`
(so `world_size = 6`), the mesh communicator returned for rank 0 is
`[0, 1, 2]` — it has size 3 (`n_instance`, not `n_subdomain = 2` as claimed)
and its members 0 and 1 have different keys, so it is not a set of processes
sharing one key. -/
theorem C1_counterexample :
    splitCommunicators 6 0 2 3 = .ok ([0, 1, 2], [0, 3]) ∧
    ¬ (meshGroupRanks 6 3 0).length = 2 ∧
    (1 ∈ meshGroupRanks 6 3 0 ∧ ¬ splitKey 1 3 = splitKey 0 3) :=
  ⟨rfl, by decide, by decide⟩

/-- C6 (confirmed): whenever the flat group size differs from
`n_subdomain * n_instance`, `splitCommunicators` fails with the `assert`
(the `AssertionError` realizes the dimension-mismatch `ConfigurationError`
of the specification) and the failing result carries no communicators, the
`assert` being executed before either `Split` call. -/
theorem C6_split_requires_exact_grid (world_size rank ns ni : ℕ)
    (h : world_size ≠ ns * ni) :
    splitCommunicators world_size rank ns ni = .error .assertionError := by
  simp [splitCommunicators, h]

/-- Witness for C6 at `world_size = 5`, `n_subdomain = 2`, `n_instance = 3`. -/
theorem C6_split_requires_exact_grid_witness :
    5 ≠ 2 * 3 ∧ splitCommunicators 5 0 2 3 = .error .assertionError :=
  ⟨by decide, C6_split_requires_exact_grid 5 0 2 3 (by decide)⟩

/-- C2 (corrected): on a collective group of size `N`, `allReduce` on a real
scalar returns the exact sum of the `N` values on every process under
`"sum"` and that sum divided by `N` in rational (floating) division under
`"avg"` (real arithmetic is ideal: floating-point rounding is outside the
embedding).  An integer scalar, however, travels on a 32-bit wire
(`np.array([v], dtype=np.int32)` reduced with `MPI.INT`): the value
delivered on every process is the two's-complement 32-bit wrap of the sum
of the 32-bit-narrowed inputs — equal to the exact sum exactly when every
input and the exact sum fit in `int32` — and `"avg"` floor-divides that
delivered value by `N`.  In particular, when process `i` holds value `i`,
`"sum"` returns `N*(N-1)/2` and `"avg"` returns `(N-1)/2` in rational
division for real scalars, and the same holds for integer scalars (with
`(N-1)//2` in floor division) whenever `N*(N-1)/2 < 2^31`.  The original
scalars are never mutated. -/
theorem C2_scalar_allreduce (isc : Bool) :
    (∀ xs : List ℚ, gridAllReduce isc "sum" (.gfloat xs) =
        .ok (.gfloat (List.replicate xs.length xs.sum)) (.gfloat xs)) ∧
    (∀ xs : List ℚ, gridAllReduce isc "avg" (.gfloat xs) =
        .ok (.gfloat (List.replicate xs.length (xs.sum / (xs.length : ℚ)))) (.gfloat xs)) ∧
    (∀ zs : List ℤ, gridAllReduce isc "sum" (.gint zs) =
        .ok (.gint (List.replicate zs.length (toInt32 ((zs.map toInt32).sum)))) (.gint zs)) ∧
    (∀ zs : List ℤ, gridAllReduce isc "avg" (.gint zs) =
        .ok (.gint (List.replicate zs.length
              (Int.fdiv (toInt32 ((zs.map toInt32).sum)) (zs.length : ℤ)))) (.gint zs)) ∧
    (∀ zs : List ℤ, (∀ z ∈ zs, -2147483648 ≤ z ∧ z < 2147483648) →
       -2147483648 ≤ zs.sum → zs.sum < 2147483648 →
       gridAllReduce isc "sum" (.gint zs) =
         .ok (.gint (List.replicate zs.length zs.sum)) (.gint zs)) ∧
    (∀ zs : List ℤ, (∀ z ∈ zs, -2147483648 ≤ z ∧ z < 2147483648) →
       -2147483648 ≤ zs.sum → zs.sum < 2147483648 →
       gridAllReduce isc "avg" (.gint zs) =
         .ok (.gint (List.replicate zs.length (Int.fdiv zs.sum (zs.length : ℤ)))) (.gint zs)) ∧
    (∀ N : ℕ, 0 < N →
      (gridAllReduce isc "sum" (.gfloat ((List.range N).map (fun i : ℕ => (i : ℚ)))) =
        .ok (.gfloat (List.replicate N ((N : ℚ) * ((N : ℚ) - 1) / 2)))
            (.gfloat ((List.range N).map (fun i : ℕ => (i : ℚ)))) ∧
      gridAllReduce isc "avg" (.gfloat ((List.range N).map (fun i : ℕ => (i : ℚ)))) =
        .ok (.gfloat (List.replicate N (((N : ℚ) - 1) / 2)))
            (.gfloat ((List.range N).map (fun i : ℕ => (i : ℚ))))) ∧
      (N * (N - 1) / 2 < 2147483648 →
      gridAllReduce isc "sum" (.gint ((List.range N).map (fun i : ℕ => (i : ℤ)))) =
        .ok (.gint (List.replicate N ((N * (N - 1) / 2 : ℕ) : ℤ)))
            (.gint ((List.range N).map (fun i : ℕ => (i : ℤ)))) ∧
      gridAllReduce isc "avg" (.gint ((List.range N).map (fun i : ℕ => (i : ℤ)))) =
        .ok (.gint (List.replicate N (((N - 1) / 2 : ℕ) : ℤ)))
            (.gint ((List.range N).map (fun i : ℕ => (i : ℤ)))))) := by
  have hsum : pyLower "sum" = "sum" := by decide
  have havg : pyLower "avg" = "avg" := by decide
  have hne : pyLower "avg" ≠ "sum" := by decide
  refine ⟨?_, ?_, ?_, ?_, ?_, ?_, ?_⟩
  · intro xs
    simp [gridAllReduce, hsum, List.map_const']
  · intro xs
    simp [gridAllReduce, havg, List.map_const']
  · intro zs
    simp [gridAllReduce, hsum, List.map_const']
  · intro zs
    simp [gridAllReduce, havg, List.map_const']
  · intro zs hz hlo hhi
    simp only [gridAllReduce]
    rw [if_pos hsum, map_toInt32_eq_self zs hz, toInt32_eq_self _ hlo hhi,
      List.map_const']
  · intro zs hz hlo hhi
    simp only [gridAllReduce]
    rw [if_neg hne, if_pos havg, map_toInt32_eq_self zs hz,
      toInt32_eq_self _ hlo hhi, List.map_const']
  · intro N hN
    have hnat := two_mul_sum_range N
    have hN1 : 1 ≤ N := hN
    have hqsum : ((List.range N).map (fun i : ℕ => (i : ℚ))).sum =
        (N : ℚ) * ((N : ℚ) - 1) / 2 := by
      have hc := congrArg (fun k : ℕ => (k : ℚ)) hnat
      push_cast [Nat.cast_sub hN1] at hc
      have hc' : (2 : ℚ) * ((List.range N).map (fun i : ℕ => (i : ℚ))).sum =
          (N : ℚ) * ((N : ℚ) - 1) := hc
      linarith
    have hnsum : (List.range N).sum = N * (N - 1) / 2 := by omega
    have hzsum : ((List.range N).map (fun i : ℕ => (i : ℤ))).sum =
        ((N * (N - 1) / 2 : ℕ) : ℤ) := by
      rw [← Nat.cast_list_sum, hnsum]
    have hlenq : ((List.range N).map (fun i : ℕ => (i : ℚ))).length = N := by simp
    have hlenz : ((List.range N).map (fun i : ℕ => (i : ℤ))).length = N := by simp
    refine ⟨⟨?_, ?_⟩, ?_⟩
    · simp only [gridAllReduce]
      rw [if_pos hsum, hqsum, List.map_const', hlenq]
    · simp only [gridAllReduce]
      rw [if_neg hne, if_pos havg, hqsum, hlenq]
      have harith : (N : ℚ) * ((N : ℚ) - 1) / 2 / (N : ℚ) = ((N : ℚ) - 1) / 2 := by
        have hN0 : (N : ℚ) ≠ 0 := Nat.cast_ne_zero.mpr (by omega)
        field_simp
        ring
      rw [harith, List.map_const', hlenq]
    · intro hbound
      have hi31 : ∀ i, i < N → i < 2147483648 := by
        intro i hi
        rcases Nat.lt_or_ge N 2 with h2 | h2
        · omega
        · have h3 : N - 1 ≤ N * (N - 1) / 2 := by
            rw [Nat.le_div_iff_mul_le (by norm_num : 0 < 2)]
            calc (N - 1) * 2 = 2 * (N - 1) := Nat.mul_comm _ _
              _ ≤ N * (N - 1) := Nat.mul_le_mul_right (N - 1) h2
          omega
      have hins : ∀ z ∈ (List.range N).map (fun i : ℕ => (i : ℤ)),
          -2147483648 ≤ z ∧ z < 2147483648 := by
        intro z hz
        simp only [List.mem_map, List.mem_range] at hz
        obtain ⟨i, hi, rfl⟩ := hz
        have := hi31 i hi
        omega
      have hmap : ((List.range N).map (fun i : ℕ => (i : ℤ))).map toInt32 =
          (List.range N).map (fun i : ℕ => (i : ℤ)) :=
        map_toInt32_eq_self _ hins
      have hXlo : (-2147483648 : ℤ) ≤ ((N * (N - 1) / 2 : ℕ) : ℤ) := by omega
      have hXhi : ((N * (N - 1) / 2 : ℕ) : ℤ) < 2147483648 := by omega
      constructor
      · simp only [gridAllReduce]
        rw [if_pos hsum, hmap, hzsum, toInt32_eq_self _ hXlo hXhi,
          List.map_const', hlenz]
      · simp only [gridAllReduce]
        rw [if_neg hne, if_pos havg, hmap, hzsum, toInt32_eq_self _ hXlo hXhi, hlenz]
        have hdiv : (N * (N - 1) / 2) / N = (N - 1) / 2 := by
          apply sum_range_div_gauss N _ hN
          omega
        have harith : Int.fdiv ((N * (N - 1) / 2 : ℕ) : ℤ) (N : ℤ) =
            (((N - 1) / 2 : ℕ) : ℤ) := by
          rw [← Int.ofNat_fdiv, hdiv]
        rw [harith, List.map_const', hlenz]

/-- Witness for C2 at a group of size `N = 4` holding values `0, 1, 2, 3`
(well inside the `int32` range): the integer average is
`(4*3/2) // 4 = 1 = (4-1) // 2`. -/
theorem C2_scalar_allreduce_witness :
    0 < 4 ∧ (4 * (4 - 1) / 2 : ℕ) < 2147483648 ∧
    gridAllReduce false "avg" (.gint ((List.range 4).map (fun i : ℕ => (i : ℤ)))) =
      .ok (.gint (List.replicate 4 (((4 - 1) / 2 : ℕ) : ℤ)))
          (.gint ((List.range 4).map (fun i : ℕ => (i : ℤ)))) :=
  ⟨by decide, by decide,
   (((C2_scalar_allreduce false).2.2.2.2.2.2 4 (by decide)).2 (by decide)).2⟩

/-- Counterexample to C2 as stated: two processes each holding the integer
`2 ^ 30 = 1073741824`.  The exact sum is `2 ^ 31 = 2147483648`, but the
`MPI.INT` wire wraps it to `-2147483648`, which `allReduce` returns on both
processes — not the exact sum the claim asserts for every integer payload. -/
theorem C2_counterexample :
    gridAllReduce false "sum" (.gint [1073741824, 1073741824]) =
      .ok (.gint [-2147483648, -2147483648]) (.gint [1073741824, 1073741824]) ∧
    (-2147483648 : ℤ) ≠ ((1073741824 : ℤ) + 1073741824) :=
  ⟨by decide, by decide⟩

/-- C3 (code bug): for a dense numpy buffer, `allReduce(v, "avg")` is
specified (and documented in the docstring: `v will be overwritten`) to
replace `v` in place by the elementwise sum divided by `N`, but line 102 of
`collective.py` reads `v[:] == (1./float(self.size()))*receive` — `==`, a
comparison, instead of the assignment `=` — so the buffer is returned
unchanged.  At the failing input (a group of 2 processes holding `[0.]` and
`[2.]`) the result should be `[1.]` on both, yet both keep their original
buffers; the `"sum"` branch, which does assign, shows the intended in-place
behavior. -/
theorem C3_array_avg_not_applied :
    gridAllReduce false "avg" (.garr [[0], [2]]) =
      .ok (.garr [[0], [2]]) (.garr [[0], [2]]) ∧
    GPayload.garr [[0], [2]] ≠ GPayload.garr [[1], [1]] ∧
    gridAllReduce false "sum" (.garr [[0], [2]]) =
      .ok (.garr [[2], [2]]) (.garr [[2], [2]]) := by
  have hsum : pyLower "sum" = "sum" := by decide
  refine ⟨by decide, by decide, ?_⟩
  simp [gridAllReduce, hsum, esum, addQ]

/-- C4 (confirmed): for a distributed field vector (`dolfin.Vector`) payload
and a valid op, `allReduce` overwrites every local segment with the
elementwise sum of the local segments of the whole group — scaled by
`1./float(self.size())` for `"avg"` — performs the synchronization step
`v.apply("")` (the apply counter increases by one on every process), and
returns the same, now reduced, vector object.  The serial-check hypothesis
covers both collective configurations: `is_serial_check = False` (the
default) or all member vectors spatially serial. -/
theorem C4_vector_reduce (isc : Bool) (op : String) (locs : List (List ℚ))
    (ms acs : List ℕ)
    (hser : isc = false ∨ ms.all (fun s => s == 1) = true) :
    (pyLower op = "sum" →
       gridAllReduce isc op (.gvec locs ms acs) =
         .ok (.gvec (locs.map fun _ => esum locs) ms (acs.map (· + 1)))
             (.gvec (locs.map fun _ => esum locs) ms (acs.map (· + 1)))) ∧
    (pyLower op = "avg" →
       gridAllReduce isc op (.gvec locs ms acs) =
         .ok (.gvec (locs.map fun _ => (esum locs).map (fun x => (1 / (locs.length : ℚ)) * x))
                ms (acs.map (· + 1)))
             (.gvec (locs.map fun _ => (esum locs).map (fun x => (1 / (locs.length : ℚ)) * x))
                ms (acs.map (· + 1)))) := by
  have hcond : (isc && ms.any fun s => s != 1) = false := by
    rcases hser with h | h
    · simp [h]
    · simp only [List.all_eq_true] at h
      have hany : (ms.any fun s => s != 1) = false := by
        rw [List.any_eq_false]
        intro x hx
        have := h x hx
        simp_all
      simp [hany]
  have hcond' : ¬ ((isc && ms.any fun s => s != 1) = true) := by simp [hcond]
  constructor <;> intro hop
  · simp only [gridAllReduce]
    rw [if_neg hcond', if_pos hop]
  · have hne : pyLower op ≠ "sum" := by rw [hop]; decide
    simp only [gridAllReduce]
    rw [if_neg hcond', if_neg hne, if_pos hop]

/-- Witness for C4: two processes holding local segments `[1.]` and `[2.]`,
operation name `Sum` (exercising the case-insensitive match). -/
theorem C4_vector_reduce_witness :
    pyLower "Sum" = "sum" ∧
    gridAllReduce false "Sum" (.gvec [[1], [2]] [1, 1] [0, 0]) =
      .ok (.gvec (([[1], [2]] : List (List ℚ)).map fun _ => esum [[1], [2]])
             [1, 1] (([0, 0] : List ℕ).map (· + 1)))
          (.gvec (([[1], [2]] : List (List ℚ)).map fun _ => esum [[1], [2]])
             [1, 1] (([0, 0] : List ℕ).map (· + 1))) :=
  ⟨by decide,
   (C4_vector_reduce false "Sum" [[1], [2]] [1, 1] [0, 0] (Or.inl rfl)).1 (by decide)⟩

/-- C5 (corrected): `allReduce` on a payload with `nvec` does recurse
entrywise with the same op and return the same container, but the loop
`self.allReduce(v[i], op)` discards the per-entry return value, so each
entry is left in its per-entry **post-state**: entries mutated in place
(distributed vectors, and buffers under `"sum"`) hold their per-entry
reduction, while scalar entries — whose reduction is pure and only returns
the reduced value — are left unchanged, contrary to the claimed
`[sum1, sum2, sum3]` example. -/
theorem C5_multivector_entrywise (isc : Bool) (op : String) (es : GPList)
    (hok : allReduceAllOk isc op es = true) :
    gridAllReduce isc op (.gmulti es) =
      .ok (.gmulti (es.map (fun e => (gridAllReduce isc op e).st)))
          (.gmulti (es.map (fun e => (gridAllReduce isc op e).st))) := by
  simp [gridAllReduce, gridAllReduceEntries_allOk isc op es hok]

/-- Witness for C5: a multi-vector of two distributed-vector entries reduces
to the per-entry post-states. -/
theorem C5_multivector_entrywise_witness :
    allReduceAllOk false "sum"
      (.cons (.gvec [[1], [2]] [1, 1] [0, 0])
        (.cons (.gvec [[3], [4]] [1, 1] [0, 0]) .nil)) = true ∧
    gridAllReduce false "sum"
      (.gmulti (.cons (.gvec [[1], [2]] [1, 1] [0, 0])
        (.cons (.gvec [[3], [4]] [1, 1] [0, 0]) .nil))) =
      .ok (.gmulti ((GPList.cons (.gvec [[1], [2]] [1, 1] [0, 0])
              (.cons (.gvec [[3], [4]] [1, 1] [0, 0]) .nil)).map
            (fun e => (gridAllReduce false "sum" e).st)))
          (.gmulti ((GPList.cons (.gvec [[1], [2]] [1, 1] [0, 0])
              (.cons (.gvec [[3], [4]] [1, 1] [0, 0]) .nil)).map
            (fun e => (gridAllReduce false "sum" e).st))) :=
  ⟨by decide, C5_multivector_entrywise false "sum" _ (by decide)⟩

/-- Counterexample to C5 as stated: a multi-vector of 3 scalar entries
`[1, 2, 3]` held identically by each of 2 processes, reduced with `"sum"`,
comes back with every entry **unchanged** (`[1, 2, 3]`, not the claimed
entrywise sums `[2, 4, 6]`), because the scalar branch returns the reduced
value instead of mutating and the recursion discards that return value. -/
theorem C5_counterexample :
    gridAllReduce false "sum"
      (.gmulti (.cons (.gfloat [1, 1])
        (.cons (.gfloat [2, 2]) (.cons (.gfloat [3, 3]) .nil)))) =
      .ok (.gmulti (.cons (.gfloat [1, 1])
            (.cons (.gfloat [2, 2]) (.cons (.gfloat [3, 3]) .nil))))
          (.gmulti (.cons (.gfloat [1, 1])
            (.cons (.gfloat [2, 2]) (.cons (.gfloat [3, 3]) .nil)))) ∧
    GPayload.gmulti (.cons (.gfloat [1, 1])
        (.cons (.gfloat [2, 2]) (.cons (.gfloat [3, 3]) .nil))) ≠
      GPayload.gmulti (.cons (.gfloat [2, 2])
        (.cons (.gfloat [4, 4]) (.cons (.gfloat [6, 6]) .nil))) :=
  ⟨by decide, by decide⟩

/-- C7 (corrected): with an op whose lowercase form is neither `sum` nor
`avg`, `NullCollective.allReduce` raises the unknown-operation
`NotImplementedError` for **every** payload, and the Grid variant raises it
for every scalar, numpy-buffer, and distributed-vector payload, in all
cases leaving the payload unmutated; for valid ops (case-insensitively) the
unknown-operation error is never raised.  The universal claim fails for the
Grid variant on two payload shapes: an unrecognized payload kind raises
`NameError` instead (the bare `is_serial_check` bug), and an empty
multi-vector raises nothing at all, its entry loop being empty. -/
theorem C7_invalid_op (isc : Bool) (op : String) :
    (pyLower op ≠ "sum" → pyLower op ≠ "avg" →
       (∀ v : GPayload, nullAllReduce op v = .error (nullOpErr op)) ∧
       (∀ xs : List ℚ, gridAllReduce isc op (.gfloat xs) =
          .err (gridOpErr (pyLower op)) (.gfloat xs)) ∧
       (∀ zs : List ℤ, gridAllReduce isc op (.gint zs) =
          .err (gridOpErr (pyLower op)) (.gint zs)) ∧
       (∀ xss : List (List ℚ), gridAllReduce isc op (.garr xss) =
          .err (gridOpErr (pyLower op)) (.garr xss)) ∧
       (∀ locs ms acs, gridAllReduce false op (.gvec locs ms acs) =
          .err (gridOpErr (pyLower op)) (.gvec locs ms acs)) ∧
       (∀ v : GPayload, (gridAllReduce isc op v).st = v) ∧
       isUnknownOpErr (gridOpErr (pyLower op)) = true ∧
       isUnknownOpErr (nullOpErr op) = true) ∧
    ((pyLower op = "sum" ∨ pyLower op = "avg") →
       (∀ v : GPayload, nullAllReduce op v = .ok v) ∧
       (∀ v : GPayload, ∀ e, (gridAllReduce isc op v).errOf = some e →
          isUnknownOpErr e = false)) := by
  constructor
  · intro h1 h2
    refine ⟨?_, ?_, ?_, ?_, ?_, gridAllReduce_badop_st isc op h1 h2, rfl, rfl⟩
    · intro v
      rw [nullAllReduce, if_neg (not_or.mpr ⟨h1, h2⟩)]
    · intro xs
      simp only [gridAllReduce]
      rw [if_neg h1, if_neg h2]
    · intro zs
      simp only [gridAllReduce]
      rw [if_neg h1, if_neg h2]
    · intro xss
      simp only [gridAllReduce]
      rw [if_neg h1, if_neg h2]
    · intro locs ms acs
      simp only [gridAllReduce]
      rw [if_neg (by simp : ¬ ((false && ms.any fun s => s != 1) = true)),
        if_neg h1, if_neg h2]
  · intro h
    exact ⟨fun v => by rw [nullAllReduce, if_pos h],
           gridAllReduce_goodop_noUnknown isc op h⟩

/-- Witness for C7: op `Max` is rejected with the unknown-operation error on
a scalar payload without mutating it, while op `SUM` is accepted. -/
theorem C7_invalid_op_witness :
    gridAllReduce false "Max" (.gfloat [1]) =
      .err (gridOpErr "max") (.gfloat [1]) ∧
    nullAllReduce "Max" (.gfloat [1]) = .error (nullOpErr "Max") ∧
    nullAllReduce "SUM" (.gfloat [1]) = .ok (.gfloat [1]) := by
  refine ⟨?_, ?_, ?_⟩
  · exact ((C7_invalid_op false "Max").1 (by decide) (by decide)).2.1 [1]
  · exact ((C7_invalid_op false "Max").1 (by decide) (by decide)).1 _
  · exact ((C7_invalid_op false "SUM").2 (Or.inl (by decide))).1 _

/-- Counterexample to C7 as stated: for the Grid variant and the invalid op
`max`, an unrecognized payload kind (for instance a `str`) raises
`NameError` — not the unknown-operation error — and an empty multi-vector
payload raises no error at all. -/
theorem C7_counterexample :
    gridAllReduce false "max" (.gother "str") =
      .err (.nameError "is_serial_check") (.gother "str") ∧
    isUnknownOpErr (.nameError "is_serial_check") = false ∧
    gridAllReduce false "max" (.gmulti .nil) = .ok (.gmulti .nil) (.gmulti .nil) :=
  ⟨rfl, rfl, rfl⟩

/-- C8 (code bug): for a payload of unrecognized kind, `allReduce` and
`bcast` are specified (and clearly intended, per their `msg` construction)
to raise `NotImplementedError` naming the payload type, but their guard
reads the bare undefined name `is_serial_check` (missing `self.`) at lines
133 and 171 of `collective.py`, so both raise `NameError` before the
message naming the type is ever built. -/
theorem C8_unrecognized_payload_nameerror (isc : Bool) (op : String) (root : ℕ)
    (kind : String) :
    gridAllReduce isc op (.gother kind) =
      .err (.nameError "is_serial_check") (.gother kind) ∧
    gridBcast isc root (.gother kind) =
      .err (.nameError "is_serial_check") (.gother kind) :=
  ⟨rfl, rfl⟩

/-- C9 (code bug): `checkFunctionSpaceConsistentPartitioning` can never
return a boolean: its first statement applies `float` to
`collective.rank` — a bound method in both collective classes, since the
call parentheses are missing — raising `TypeError` immediately on every
process (and the rest of the body is unreachable and itself broken: the
rank-0 branch references the undefined global `mesh` and the final
reduction calls a nonexistent `allReduce` attribute of the world
communicator).  `checkMeshConsistentPartitioning` therefore fails the same
way on its first function-space check. -/
theorem C9_checker_never_returns :
    checkFunctionSpaceConsistentPartitioning nullCollectiveRankAttr =
      .error (.typeError "float() argument must be a string or a number, not method") ∧
    checkFunctionSpaceConsistentPartitioning gridCollectiveRankAttr =
      .error (.typeError "float() argument must be a string or a number, not method") ∧
    checkMeshConsistentPartitioning nullCollectiveRankAttr =
      .error (.typeError "float() argument must be a string or a number, not method") ∧
    checkMeshConsistentPartitioning gridCollectiveRankAttr =
      .error (.typeError "float() argument must be a string or a number, not method") :=
  ⟨rfl, rfl, rfl, rfl⟩

/-- C10 (confirmed): for scalar and dense-buffer payloads, the Grid `bcast`
goes through the pickling `comm.bcast`, which returns the value held by
`root` on every process as its result and never writes into the
caller-supplied object: the post-call payload state equals the pre-call
state on every process, and the returned value at every process equals the
value `root` held. -/
theorem C10_bcast_frame (isc : Bool) (root : ℕ) (xs : List ℚ) (zs : List ℤ)
    (xss : List (List ℚ)) (h1 : root < xs.length) (h2 : root < zs.length)
    (h3 : root < xss.length) :
    (∃ R : List ℚ, gridBcast isc root (.gfloat xs) = .ok (.gfloat R) (.gfloat xs) ∧
       R.length = xs.length ∧ ∀ p, p < xs.length → R.getD p 0 = xs.getD root 0) ∧
    (∃ R : List ℤ, gridBcast isc root (.gint zs) = .ok (.gint R) (.gint zs) ∧
       R.length = zs.length ∧ ∀ p, p < zs.length → R.getD p 0 = zs.getD root 0) ∧
    (∃ R : List (List ℚ), gridBcast isc root (.garr xss) = .ok (.garr R) (.garr xss) ∧
       R.length = xss.length ∧ ∀ p, p < xss.length → R.getD p [] = xss.getD root []) := by
  refine ⟨⟨_, rfl, by simp, ?_⟩, ⟨_, rfl, by simp, ?_⟩, ⟨_, rfl, by simp, ?_⟩⟩ <;>
    (intro p hp ; exact getD_map_const _ _ _ _ hp)

/-- Witness for C10 at `root = 1` on a group of 2 processes. -/
theorem C10_bcast_frame_witness :
    (1 : ℕ) < 2 ∧
    (∃ R : List ℚ, gridBcast false 1 (.gfloat [5, 7]) = .ok (.gfloat R) (.gfloat [5, 7]) ∧
       R.length = ([5, 7] : List ℚ).length ∧
       ∀ p, p < ([5, 7] : List ℚ).length →
         R.getD p 0 = ([5, 7] : List ℚ).getD 1 0) :=
  ⟨by decide,
   (C10_bcast_frame false 1 [5, 7] [3, 4] [[1], [2]]
     (by decide) (by decide) (by decide)).1⟩

end HippylibSched
